import Mathlib

/-!
Shallow embedding of the `hackernews-slack-bot` sources (`main.go`,
`story.go`, and the shared message-type file) for checking the
repository's specification.

Modelling conventions:
* Go `int64` values are modelled as `Int`; none of the embedded
  arithmetic can overflow in the claims under study, so no explicit
  wrap-around is needed.
* `time.Time` is modelled as an `Int` count of seconds.
* Every external effect (HTTP calls, the App Engine datastore, the
  opengraph library, `url.Parse`) is modelled as an explicit environment
  parameter or as a returned list of actions, so that every function is
  pure and executable.
* A Go nil-pointer dereference (panic) is modelled as `none`.
-/

/-- Model of the decimal digit character that Go's `fmt.Sprintf("%d", _)`
(resp. `strconv.FormatInt(_, 10)`) produces for `n % 10`. -/
def digitChar (n : Nat) : Char := Char.ofNat (48 + n % 10)

/-- Fuel-indexed digit-list renderer for a natural number; fuel `n + 1`
is always sufficient.  Structural recursion keeps it kernel-reducible. -/
def natDecimalAux : Nat → Nat → List Char
  | 0, _ => []
  | fuel + 1, n =>
    if n < 10 then [digitChar n] else natDecimalAux fuel (n / 10) ++ [digitChar n]

/-- Decimal rendering of a natural number (model of Go `%d`). -/
def natDecimal (n : Nat) : String := String.mk (natDecimalAux (n + 1) n)

/-- Decimal rendering of an `Int` (model of Go `%d` on `int64`). -/
def intDecimal (i : Int) : String :=
  if i < 0 then "-" ++ natDecimal i.natAbs else natDecimal i.natAbs

theorem digitChar_ne_hot (n : Nat) : digitChar n ≠ '🔥' := by
  have h : n % 10 < 10 := Nat.mod_lt _ (by omega)
  have key : ∀ m, m < 10 → Char.ofNat (48 + m) ≠ '🔥' := by decide
  exact key _ h

theorem hot_not_mem_natDecimalAux (fuel : Nat) :
    ∀ n : Nat, '🔥' ∉ natDecimalAux fuel n := by
  induction fuel with
  | zero => intro n; simp [natDecimalAux]
  | succ f ih =>
    intro n
    rw [natDecimalAux]
    split
    · simp only [List.mem_singleton]
      exact fun h => digitChar_ne_hot n h.symm
    · simp only [List.mem_append, List.mem_singleton]
      rintro (h | h)
      · exact ih _ h
      · exact digitChar_ne_hot n h.symm

theorem hot_not_mem_natDecimal (n : Nat) : '🔥' ∉ (natDecimal n).data :=
  hot_not_mem_natDecimalAux _ _

theorem string_data_append (a b : String) : (a ++ b).data = a.data ++ b.data := rfl

theorem hot_not_mem_intDecimal (i : Int) : '🔥' ∉ (intDecimal i).data := by
  unfold intDecimal
  split
  · rw [string_data_append]
    simp only [List.mem_append]
    rintro (h | h)
    · exact absurd h (by decide)
    · exact hot_not_mem_natDecimal _ h
  · exact hot_not_mem_natDecimal _

/-- `startsWithChars pat l` holds when `pat` occurs at the front of `l`
(arrays of runes; helper for the model of Go `strings.Contains`). -/
def startsWithChars : List Char → List Char → Bool
  | [], _ => true
  | _ :: _, [] => false
  | p :: ps, c :: cs => p == c && startsWithChars ps cs

/-- `hasSubChars pat l` holds when `pat` occurs contiguously in `l`. -/
def hasSubChars (pat : List Char) : List Char → Bool
  | [] => startsWithChars pat []
  | c :: rest => startsWithChars pat (c :: rest) || hasSubChars pat rest

/-- Model of Go's `strings.Contains(s, sub)`. -/
def goContains (s sub : String) : Bool := hasSubChars sub.data s.data

theorem startsWithChars_iff (p : List Char) :
    ∀ l : List Char, startsWithChars p l = true ↔ ∃ t, l = p ++ t := by
  induction p with
  | nil => intro l; simp [startsWithChars]
  | cons a ps ih =>
    intro l
    cases l with
    | nil =>
      simp [startsWithChars]
    | cons c cs =>
      rw [startsWithChars]
      simp only [Bool.and_eq_true, beq_iff_eq, ih]
      constructor
      · rintro ⟨rfl, t, rfl⟩; exact ⟨t, rfl⟩
      · rintro ⟨t, h⟩
        injection h with h1 h2
        exact ⟨h1.symm, t, h2⟩

theorem hasSubChars_iff (p : List Char) :
    ∀ l : List Char, hasSubChars p l = true ↔ ∃ pre post, l = pre ++ p ++ post := by
  intro l
  induction l with
  | nil =>
    rw [hasSubChars]
    rw [startsWithChars_iff]
    constructor
    · rintro ⟨t, h⟩; exact ⟨[], t, by simpa using h⟩
    · rintro ⟨pre, post, h⟩
      rcases List.append_eq_nil.mp (List.append_eq_nil.mp h.symm).1 with ⟨h1, h2⟩
      exact ⟨post, by simp [h2, (List.append_eq_nil.mp h.symm).2]⟩
  | cons c cs ih =>
    rw [hasSubChars]
    simp only [Bool.or_eq_true, startsWithChars_iff, ih]
    constructor
    · rintro (⟨t, h⟩ | ⟨pre, post, h⟩)
      · exact ⟨[], t, by simpa using h⟩
      · exact ⟨c :: pre, post, by simp [h]⟩
    · rintro ⟨pre, post, h⟩
      cases pre with
      | nil => exact Or.inl ⟨post, by simpa using h⟩
      | cons a pre =>
        injection h with h1 h2
        exact Or.inr ⟨pre, post, h2⟩

/-! ## Data model (from `story.go`, `main.go` and the shared message-type file) -/

/-- `Hot` is the sign for a hot story (`story.go`). -/
def Hot : String := "🔥"

/-- `BatchSize` is the number of top stories fetched from Hacker News (`main.go`). -/
def BatchSize : Nat := 30

/-- `NumCommentsThreshold` from `main.go`. -/
def NumCommentsThreshold : Int := 5

/-- `ScoreThreshold` from `main.go`. -/
def ScoreThreshold : Int := 50

/-- One hour, in the seconds-based model of `time.Time`. -/
def Hour : Int := 3600

/-- `Story` struct from `story.go`.  The Go field `Type` is spelled
`Type'` because `Type` is a Lean keyword; `time.Time` is an `Int`. -/
structure Story where
  ID : Int
  URL : String
  Title : String
  Descendants : Int
  Score : Int
  Timestamp : String
  LastSave : Int
  Type' : String
  missingFieldsLoaded : Bool
deriving DecidableEq

/-- `SlackMessageAttachmentField` struct from the shared message-type file. -/
structure SlackMessageAttachmentField where
  Title : String
  Value : String
  Short : Bool
deriving DecidableEq

/-- `SlackMessageAttachments` struct from the shared message-type file. -/
structure SlackMessageAttachments where
  Fallback : String
  AuthorName : String
  AuthorIcon : String
  Color : String
  Title : String
  TitleLink : String
  Fields : List SlackMessageAttachmentField
  ThumbURL : String
  Text : String
deriving DecidableEq

/-- `InlineKeyboardButton` struct from the shared message-type file. -/
structure InlineKeyboardButton where
  Text : String
  URL : String
deriving DecidableEq

/-- `InlineKeyboardMarkup` struct from the shared message-type file. -/
structure InlineKeyboardMarkup where
  InlineKeyboard : List (List InlineKeyboardButton)
deriving DecidableEq

/-- `DeleteMessageResponse` struct from the shared message-type file. -/
structure DeleteMessageResponse where
  OK : Bool
  ErrorCode : Int
  Description : String
deriving DecidableEq

/-- The datastore record actually persisted by `Story.Save` (`story.go`):
only `Timestamp`, `ID` and `LastSave` are written. -/
structure StoreRecord where
  id : Int
  timestamp : String
  lastSave : Int
deriving DecidableEq

/-- Go error values that the embedded functions can return.
`ignoredItem` models the sentinel `ErrIgnoredItem`; `noSuchEntity`
models `datastore.ErrNoSuchEntity`; `alreadyPosted` models the
`fmt.Errorf("story already posted: ...")` value; `other` covers
transport/decode/backend errors. -/
inductive GoErr
  | ignoredItem
  | alreadyPosted
  | noSuchEntity
  | other (msg : String)
deriving DecidableEq

/-- Outbound chat-platform requests issued by the embedded functions. -/
inductive ChatRequest
  | post (atts : List SlackMessageAttachments)
  | update (ts : String) (atts : List SlackMessageAttachments)
  | deleteMsg (chatID : String) (messageID : Int)
deriving DecidableEq

/-! ## Helper URLs and the eligibility filter -/

/-- `NewsURL` from `main.go`. -/
def NewsURL (id : Int) : String :=
  "https://news.ycombinator.com/item?id=" ++ intDecimal id

/-- `Story.ShouldIgnore` from `story.go`. -/
def Story.ShouldIgnore (s : Story) : Bool :=
  (s.Type' != "story") ||
    decide (s.Score < ScoreThreshold) ||
    decide (s.Descendants < NumCommentsThreshold) ||
    (s.URL == "")

/-! ## Message formatting (`story.go`) -/

/-- Environment recording the results of the external calls performed
inside `Story.ToSendMessageAttachments`: the `urlfetch` GET of the
story URL, the opengraph processing of the fetched page, and
`url.Parse` plus the favicon rewrite (`u.Path = "favicon.ico"` followed
by `u.String()`, abstracted as `siteIcon`). -/
structure FormatEnv where
  fetchOK : Bool
  ogOK : Bool
  ogImages : List String
  ogDescription : String
  ogSiteName : String
  parseOK : Bool
  siteIcon : String
deriving DecidableEq

/-- The `"Score"` attachment-field value, `fmt.Sprintf("%d+%s", s.Score,
scoreSuffix)` from `Story.ToSendMessageAttachments`. -/
def scoreFieldValue (s : Story) : String :=
  intDecimal s.Score ++ "+" ++ (if 100 < s.Score then " " ++ Hot else "")

/-- The `"Comments"` attachment-field value,
`fmt.Sprintf("<%s|%d+%s>", NewsURL(s.ID), s.Descendants, commentSuffix)`. -/
def commentsFieldValue (s : Story) : String :=
  "<" ++ NewsURL s.ID ++ "|" ++ intDecimal s.Descendants ++ "+" ++
    (if 100 < s.Descendants then " " ++ Hot else "") ++ ">"

/-- `Story.ToSendMessageAttachments` from `story.go`.  The function is
not total: when the GET of `s.URL` fails the nil `resp.Body` is
dereferenced, and when `url.Parse(s.URL)` fails the nil `u` is
dereferenced — both Go panics are modelled as `none`.  A `ReadAll` or
opengraph failure is only logged; on an opengraph failure the author
name, thumbnail and text stay empty. -/
def Story.ToSendMessageAttachments (s : Story) (env : FormatEnv) :
    Option (List SlackMessageAttachments) :=
  if env.fetchOK = false then
    none
  else
    let imageURL := if env.ogOK then (match env.ogImages with
      | [] => ""
      | u :: _ => u) else ""
    let pageContent := if env.ogOK then env.ogDescription else ""
    let siteName := if env.ogOK then env.ogSiteName else ""
    if env.parseOK = false then
      none
    else
      some [{ Fallback := s.Title
              AuthorName := siteName
              AuthorIcon := env.siteIcon
              Color := "#ff6633"
              Title := s.Title
              TitleLink := s.URL
              Fields := [{ Title := "Score", Value := scoreFieldValue s, Short := true },
                         { Title := "Comments", Value := commentsFieldValue s, Short := true }]
              ThumbURL := imageURL
              Text := pageContent }]

/-- The score button text of `Story.GetReplyMarkup`,
`fmt.Sprintf("Score: %d+%s", s.Score, scoreSuffix)`. -/
def replyMarkupScoreText (s : Story) : String :=
  "Score: " ++ intDecimal s.Score ++ "+" ++ (if 100 < s.Score then " " ++ Hot else "")

/-- The comments button text of `Story.GetReplyMarkup`,
`fmt.Sprintf("Comments: %d+%s", s.Descendants, commentSuffix)`. -/
def replyMarkupCommentsText (s : Story) : String :=
  "Comments: " ++ intDecimal s.Descendants ++ "+" ++
    (if 100 < s.Descendants then " " ++ Hot else "")

/-- `Story.GetReplyMarkup` from `story.go` (pure in the source). -/
def Story.GetReplyMarkup (s : Story) : InlineKeyboardMarkup :=
  { InlineKeyboard := [[{ Text := replyMarkupScoreText s, URL := s.URL },
                        { Text := replyMarkupCommentsText s, URL := NewsURL s.ID }]] }

/-! ## Datastore model (`story.go` `Save`/`Load`, `main.go` `GetKey`) -/

/-- `Story.Save` from `story.go` (PropertyLoadSaver): the persisted
properties are exactly `Timestamp`, `ID` and `LastSave := time.Now()`. -/
def Story.save (s : Story) (now : Int) : StoreRecord :=
  { id := s.ID, timestamp := s.Timestamp, lastSave := now }

/-- `Story.Load` via `datastore.LoadStruct` on a fresh `var story Story`:
the three persisted properties are restored, every other field keeps its
Go zero value. -/
def Story.load (p : StoreRecord) : Story :=
  { ID := p.id, URL := "", Title := "", Descendants := 0, Score := 0,
    Timestamp := p.timestamp, LastSave := p.lastSave, Type' := "",
    missingFieldsLoaded := false }

/-- `datastore.Put` under the key `GetKey(ctx, p.id)`: the store is an
association list keyed by item id, and a put overwrites the key. -/
def datastorePut (store : List StoreRecord) (p : StoreRecord) : List StoreRecord :=
  p :: store.filter fun r => !(r.id == p.id)

/-- `datastore.Get` under the key `GetKey(ctx, id)`. -/
def datastoreGetRecord (store : List StoreRecord) (id : Int) : Option StoreRecord :=
  store.find? fun r => r.id == id

/-- `datastore.Delete` under the key `GetKey(ctx, id)`. -/
def datastoreDelete (store : List StoreRecord) (id : Int) : List StoreRecord :=
  store.filter fun r => !(r.id == id)

/-- `NewFromDatastore` from `story.go`: a missing key surfaces as the
typed `datastore.ErrNoSuchEntity`. -/
def NewFromDatastore (store : List StoreRecord) (id : Int) : Except GoErr Story :=
  match datastoreGetRecord store id with
  | none => Except.error GoErr.noSuchEntity
  | some p => Except.ok (Story.load p)

/-- Equality of two stories ignoring the volatile `LastSave` time (and
the transient unexported `missingFieldsLoaded` flag). -/
def eqIgnoringLastSave (a b : Story) : Bool :=
  a.ID == b.ID && a.URL == b.URL && a.Title == b.Title &&
    a.Descendants == b.Descendants && a.Score == b.Score &&
    a.Timestamp == b.Timestamp && a.Type' == b.Type'

/-! ## Sending, editing and deleting messages (`story.go`) -/

/-- Environment for `Story.SendMessage` / `Story.EditMessage`: the result
of `FillMissingFields` (the enriched story, or a transport/decode error),
the `InDatastore` query result, the environment of the formatting step,
and the result of the Slack `PostForm` call (the assigned timestamp
decoded from the response, or a transport/decode error). -/
structure SendEnv where
  fill : Except String Story
  inStore : Bool
  format : FormatEnv
  postResult : Except String String

/-- The enriched story seen after the `missingFieldsLoaded` guard at the
top of `SendMessage`/`EditMessage`. -/
def fillResult (s : Story) (env : SendEnv) : Except String Story :=
  if s.missingFieldsLoaded then Except.ok s else env.fill

/-- `Story.SendMessage` from `story.go`.  Returns `none` when
`ToSendMessageAttachments` panics; otherwise the result together with
the chat-platform requests issued.  On success the story carries the
newly assigned response timestamp. -/
def Story.SendMessage (s : Story) (env : SendEnv) :
    Option (Except GoErr Story × List ChatRequest) :=
  match fillResult s env with
  | Except.error e => some (Except.error (GoErr.other e), [])
  | Except.ok s' =>
    if s'.ShouldIgnore then some (Except.error GoErr.ignoredItem, [])
    else if env.inStore then some (Except.error GoErr.alreadyPosted, [])
    else
      match s'.ToSendMessageAttachments env.format with
      | none => none
      | some atts =>
        match env.postResult with
        | Except.error e => some (Except.error (GoErr.other e), [ChatRequest.post atts])
        | Except.ok ts => some (Except.ok { s' with Timestamp := ts }, [ChatRequest.post atts])

/-- `Story.EditMessage` from `story.go` (same structure, but keyed by the
existing `s.Timestamp` and without the `InDatastore` guard; the response
body is only logged, so a completed request always yields `ok`). -/
def Story.EditMessage (s : Story) (env : SendEnv) :
    Option (Except GoErr Unit × List ChatRequest) :=
  match fillResult s env with
  | Except.error e => some (Except.error (GoErr.other e), [])
  | Except.ok s' =>
    if s'.ShouldIgnore then some (Except.error GoErr.ignoredItem, [])
    else
      match s'.ToSendMessageAttachments env.format with
      | none => none
      | some atts =>
        match env.postResult with
        | Except.error e => some (Except.error (GoErr.other e), [ChatRequest.update s'.Timestamp atts])
        | Except.ok _ => some (Except.ok (), [ChatRequest.update s'.Timestamp atts])

/-- `Story.DeleteMessage` from `story.go`: it only calls
`datastore.Delete` on the story's key — no chat-platform request is ever
issued.  Returns the error result, the new store contents, and the list
of chat requests issued (always empty, mirroring the source). -/
def Story.DeleteMessage (s : Story) (store : List StoreRecord) (deleteOK : Bool) :
    Except GoErr Unit × List StoreRecord × List ChatRequest :=
  if deleteOK then (Except.ok (), datastoreDelete store s.ID, [])
  else (Except.error (GoErr.other "datastore.Delete"), store, [])

/-- `DeleteMessageResponse.ShouldIgnoreError` from the shared
message-type file. -/
def DeleteMessageResponse.ShouldIgnoreError (r : DeleteMessageResponse) : Bool :=
  (r.ErrorCode == 400) &&
    (goContains r.Description "message to delete not found" ||
      goContains r.Description "message can't be deleted")

/-! ## The delayed per-id tasks (`main.go`) -/

/-- Observable effects of one delayed per-id task: an error log line, a
`datastore.Put` of the story record, or a `datastore.Delete`. -/
inductive TaskEffect
  | logError
  | storePut (id : Int) (ts : String)
  | storeDelete (id : Int)
deriving DecidableEq

/-- `sendMessageFunc` from `main.go`, as a function of the result `r` of
`story.SendMessage` (the story returned on success carries the new
timestamp) and of whether the subsequent `datastore.Put` succeeds.
`errors.Cause(err) != ErrIgnoredItem` guards the error log. -/
def sendMessageFunc (id : Int) (r : Except GoErr Story) (putOK : Bool) : List TaskEffect :=
  match r with
  | Except.error e => if e = GoErr.ignoredItem then [] else [TaskEffect.logError]
  | Except.ok s =>
    TaskEffect.storePut id s.Timestamp :: (if putOK then [] else [TaskEffect.logError])

/-- `editMessageFunc` from `main.go`: the stored story is
`Story{ID: itemID, Timestamp: timestamp}`. -/
def editMessageFunc (id : Int) (ts : String) (r : Except GoErr Unit) (putOK : Bool) :
    List TaskEffect :=
  match r with
  | Except.error e => if e = GoErr.ignoredItem then [] else [TaskEffect.logError]
  | Except.ok _ =>
    TaskEffect.storePut id ts :: (if putOK then [] else [TaskEffect.logError])

/-! ## The poll handler (`main.go` `handler`) -/

/-- Per-key outcome of `datastore.GetMulti` as seen by `handler`: the
saved record's timestamp, `datastore.ErrNoSuchEntity`, or some other
backend error (logged, no dispatch). -/
inductive LookupOutcome
  | found (ts : String)
  | notFound
  | failure (msg : String)
deriving DecidableEq

/-- The action dispatched for one polled id. -/
inductive PollAction
  | edit (id : Int) (ts : String)
  | send (id : Int)
deriving DecidableEq

/-- The per-index dispatch loop of `handler`: `nil` → `editMessageFunc`
with the saved timestamp, `ErrNoSuchEntity` → `sendMessageFunc`, any
other error → `loge` only. -/
def dispatchActions : List (Int × LookupOutcome) → List PollAction
  | [] => []
  | (id, LookupOutcome.found ts) :: rest => PollAction.edit id ts :: dispatchActions rest
  | (id, LookupOutcome.notFound) :: rest => PollAction.send id :: dispatchActions rest
  | (_, LookupOutcome.failure _) :: rest => dispatchActions rest

/-- The batched `GetMulti` lookup over the fetched candidate ids. -/
def pollLookups (store : Int → LookupOutcome) (ids : List Int) :
    List (Int × LookupOutcome) :=
  ids.map fun i => (i, store i)

/-- `handler` from `main.go`, as the list of actions dispatched for the
fetched candidate ids.  `savedStories` is allocated with fixed length
`BatchSize`, so when the fetch returns a different number of ids,
`datastore.GetMulti` fails with a length-mismatch error (neither `nil`
nor a `MultiError`) and the handler returns without dispatching.  The
all-found fast path and the `MultiError` path dispatch identically. -/
def handler (store : Int → LookupOutcome) (ids : List Int) : List PollAction :=
  if ids.length = BatchSize then dispatchActions (pollLookups store ids) else []

/-! ## The cleanup sweep (`main.go` `cleanUpHandler`, `deleteMessageFunc`) -/

/-- The datastore query `Filter("LastSave <=", now - 24h)` of
`cleanUpHandler`. -/
def cleanUpSelected (store : List StoreRecord) (now : Int) : List StoreRecord :=
  store.filter fun r => decide (r.lastSave ≤ now - 24 * Hour)

/-- The ids for which `cleanUpHandler` dispatches `deleteMessageFunc`,
one per selected record. -/
def cleanUpDispatch (store : List StoreRecord) (now : Int) : List Int :=
  (cleanUpSelected store now).map StoreRecord.id

/-! ## Character-level facts about the formatted fields -/

theorem hot_mem_Hot : '🔥' ∈ Hot.data := by decide

theorem hot_not_mem_plus : '🔥' ∉ "+".data := by decide

theorem hot_not_mem_hnBase : '🔥' ∉ "https://news.ycombinator.com/item?id=".data := by
  decide

theorem hot_not_mem_NewsURL (id : Int) : '🔥' ∉ (NewsURL id).data := by
  unfold NewsURL
  rw [string_data_append]
  simp only [List.mem_append]
  rintro (h | h)
  · exact hot_not_mem_hnBase h
  · exact hot_not_mem_intDecimal _ h

theorem hot_mem_scoreFieldValue (s : Story) :
    '🔥' ∈ (scoreFieldValue s).data ↔ 100 < s.Score := by
  by_cases hc : 100 < s.Score <;>
    simp [scoreFieldValue, hc, string_data_append, List.mem_append,
      hot_not_mem_intDecimal, hot_not_mem_plus, hot_mem_Hot,
      (by decide : '🔥' ∉ " ".data), (by decide : '🔥' ∉ "".data)]

theorem hot_mem_commentsFieldValue (s : Story) :
    '🔥' ∈ (commentsFieldValue s).data ↔ 100 < s.Descendants := by
  by_cases hc : 100 < s.Descendants <;>
    simp [commentsFieldValue, hc, string_data_append, List.mem_append,
      hot_not_mem_intDecimal, hot_not_mem_plus, hot_mem_Hot, hot_not_mem_NewsURL,
      (by decide : '🔥' ∉ " ".data), (by decide : '🔥' ∉ "".data),
      (by decide : '🔥' ∉ "<".data), (by decide : '🔥' ∉ ">".data),
      (by decide : '🔥' ∉ "|".data)]

theorem hot_mem_replyMarkupScoreText (s : Story) :
    '🔥' ∈ (replyMarkupScoreText s).data ↔ 100 < s.Score := by
  by_cases hc : 100 < s.Score <;>
    simp [replyMarkupScoreText, hc, string_data_append, List.mem_append,
      hot_not_mem_intDecimal, hot_not_mem_plus, hot_mem_Hot,
      (by decide : '🔥' ∉ " ".data), (by decide : '🔥' ∉ "".data),
      (by decide : '🔥' ∉ "Score: ".data)]

theorem hot_mem_replyMarkupCommentsText (s : Story) :
    '🔥' ∈ (replyMarkupCommentsText s).data ↔ 100 < s.Descendants := by
  by_cases hc : 100 < s.Descendants <;>
    simp [replyMarkupCommentsText, hc, string_data_append, List.mem_append,
      hot_not_mem_intDecimal, hot_not_mem_plus, hot_mem_Hot,
      (by decide : '🔥' ∉ " ".data), (by decide : '🔥' ∉ "".data),
      (by decide : '🔥' ∉ "Comments: ".data)]

/-! ## Claims -/

/-- C3: for every item, the formatted "Score" field value (in the Slack
attachment and in the reply markup) contains the hot marker 🔥 exactly
when the score is strictly greater than 100, and the "Comments" field
value contains it exactly when the discussion count is strictly greater
than 100. -/
theorem claim_C3 (s : Story) :
    ('🔥' ∈ (scoreFieldValue s).data ↔ 100 < s.Score) ∧
    ('🔥' ∈ (commentsFieldValue s).data ↔ 100 < s.Descendants) ∧
    ('🔥' ∈ (replyMarkupScoreText s).data ↔ 100 < s.Score) ∧
    ('🔥' ∈ (replyMarkupCommentsText s).data ↔ 100 < s.Descendants) :=
  ⟨hot_mem_scoreFieldValue s, hot_mem_commentsFieldValue s,
   hot_mem_replyMarkupScoreText s, hot_mem_replyMarkupCommentsText s⟩

/-- C2: `ShouldIgnore` returns true exactly when the kind is not
"story", the score is below `ScoreThreshold`, the discussion count is
below `NumCommentsThreshold`, or the URL is empty; and for every such
ineligible item the send and edit paths return the ignored-item outcome
without issuing any chat-platform request. -/
theorem claim_C2 (s : Story) :
    (s.ShouldIgnore = true ↔
      (s.Type' ≠ "story" ∨ s.Score < ScoreThreshold ∨
        s.Descendants < NumCommentsThreshold ∨ s.URL = "")) ∧
    (∀ (s₀ : Story) (env : SendEnv), fillResult s₀ env = Except.ok s →
      s.ShouldIgnore = true →
      s₀.SendMessage env = some (Except.error GoErr.ignoredItem, []) ∧
      s₀.EditMessage env = some (Except.error GoErr.ignoredItem, [])) := by
  constructor
  · simp [Story.ShouldIgnore, or_assoc]
  · intro s₀ env hfill hign
    constructor
    · simp [Story.SendMessage, hfill, hign]
    · simp [Story.EditMessage, hfill, hign]

def storyC2 : Story :=
  { ID := 4, URL := "https://example.com/low", Title := "Low", Descendants := 3,
    Score := 10, Timestamp := "", LastSave := 0, Type' := "story",
    missingFieldsLoaded := true }

def envC2 : SendEnv :=
  { fill := Except.error "unused", inStore := false,
    format := { fetchOK := true, ogOK := true, ogImages := [], ogDescription := "",
                ogSiteName := "", parseOK := true, siteIcon := "" },
    postResult := Except.ok "160.1" }

theorem claim_C2_witness :
    storyC2.SendMessage envC2 = some (Except.error GoErr.ignoredItem, []) ∧
    storyC2.EditMessage envC2 = some (Except.error GoErr.ignoredItem, []) :=
  (claim_C2 storyC2).2 storyC2 envC2 rfl (by decide)

/-- C4: a per-id send or edit task is silent (no error log, no store
write) on the ignored-item outcome, logs and writes nothing on any other
error, and writes the story record to the store only when the remote
action succeeded. -/
theorem claim_C4 (id : Int) (ts : String) (rs : Except GoErr Story)
    (re : Except GoErr Unit) (putOK : Bool) :
    (rs = Except.error GoErr.ignoredItem → sendMessageFunc id rs putOK = []) ∧
    (re = Except.error GoErr.ignoredItem → editMessageFunc id ts re putOK = []) ∧
    (∀ e, rs = Except.error e → e ≠ GoErr.ignoredItem →
      TaskEffect.logError ∈ sendMessageFunc id rs putOK ∧
      ∀ i t, TaskEffect.storePut i t ∉ sendMessageFunc id rs putOK) ∧
    (∀ e, re = Except.error e → e ≠ GoErr.ignoredItem →
      TaskEffect.logError ∈ editMessageFunc id ts re putOK ∧
      ∀ i t, TaskEffect.storePut i t ∉ editMessageFunc id ts re putOK) ∧
    (∀ i t, TaskEffect.storePut i t ∈ sendMessageFunc id rs putOK →
      ∃ s, rs = Except.ok s) ∧
    (∀ i t, TaskEffect.storePut i t ∈ editMessageFunc id ts re putOK →
      re = Except.ok ()) := by
  refine ⟨?_, ?_, ?_, ?_, ?_, ?_⟩
  · rintro rfl; simp [sendMessageFunc]
  · rintro rfl; simp [editMessageFunc]
  · rintro e rfl hne
    simp [sendMessageFunc, hne]
  · rintro e rfl hne
    simp [editMessageFunc, hne]
  · intro i t hmem
    match rs with
    | Except.error e =>
      simp [sendMessageFunc] at hmem
    | Except.ok s => exact ⟨s, rfl⟩
  · intro i t hmem
    match re with
    | Except.error e =>
      simp [editMessageFunc] at hmem
    | Except.ok u => rfl

theorem claim_C4_witness :
    (sendMessageFunc 1 (Except.error GoErr.ignoredItem) true = []) ∧
    (editMessageFunc 1 "160.2" (Except.error GoErr.ignoredItem) true = []) ∧
    (TaskEffect.logError ∈ sendMessageFunc 1 (Except.error (GoErr.other "boom")) true ∧
      ∀ i t, TaskEffect.storePut i t ∉ sendMessageFunc 1 (Except.error (GoErr.other "boom")) true) :=
  ⟨(claim_C4 1 "160.2" (Except.error GoErr.ignoredItem) (Except.error GoErr.ignoredItem) true).1 rfl,
   (claim_C4 1 "160.2" (Except.error GoErr.ignoredItem) (Except.error GoErr.ignoredItem) true).2.1 rfl,
   (claim_C4 1 "160.2" (Except.error (GoErr.other "boom")) (Except.error GoErr.ignoredItem) true).2.2.1
     (GoErr.other "boom") rfl (by decide)⟩

/-- C9: the formatting step is not total: a failed HTTP fetch of the
story URL (nil response dereferenced) or a failed `url.Parse` (nil URL
dereferenced) makes `ToSendMessageAttachments` crash, modelled as
`none`. -/
theorem claim_C9 (s : Story) (env : FormatEnv) :
    (env.fetchOK = false → s.ToSendMessageAttachments env = none) ∧
    (env.parseOK = false → s.ToSendMessageAttachments env = none) := by
  constructor
  · intro h; simp [Story.ToSendMessageAttachments, h]
  · intro h
    by_cases hf : env.fetchOK <;>
      simp [Story.ToSendMessageAttachments, hf, h]

def storyC9 : Story :=
  { ID := 5, URL := "https://example.com/x", Title := "X", Descendants := 10,
    Score := 60, Timestamp := "", LastSave := 0, Type' := "story",
    missingFieldsLoaded := true }

def envC9a : FormatEnv :=
  { fetchOK := false, ogOK := false, ogImages := [], ogDescription := "",
    ogSiteName := "", parseOK := true, siteIcon := "" }

def envC9b : FormatEnv :=
  { fetchOK := true, ogOK := true, ogImages := [], ogDescription := "",
    ogSiteName := "", parseOK := false, siteIcon := "" }

theorem claim_C9_witness :
    storyC9.ToSendMessageAttachments envC9a = none ∧
    storyC9.ToSendMessageAttachments envC9b = none :=
  ⟨(claim_C9 storyC9 envC9a).1 rfl, (claim_C9 storyC9 envC9b).2 rfl⟩

/-- C10: a `SendMessage` call for an eligible story whose id is already
in the datastore returns the distinct "already posted" error and issues
no chat-platform request. -/
theorem claim_C10 (s s' : Story) (env : SendEnv)
    (hfill : fillResult s env = Except.ok s')
    (helig : s'.ShouldIgnore = false) (hin : env.inStore = true) :
    s.SendMessage env = some (Except.error GoErr.alreadyPosted, []) ∧
    GoErr.alreadyPosted ≠ GoErr.ignoredItem := by
  refine ⟨?_, by decide⟩
  simp [Story.SendMessage, hfill, helig, hin]

def storyC10 : Story :=
  { ID := 6, URL := "https://example.com/y", Title := "Y", Descendants := 10,
    Score := 60, Timestamp := "", LastSave := 0, Type' := "story",
    missingFieldsLoaded := true }

def envC10 : SendEnv :=
  { fill := Except.error "unused", inStore := true,
    format := { fetchOK := true, ogOK := true, ogImages := [], ogDescription := "",
                ogSiteName := "", parseOK := true, siteIcon := "" },
    postResult := Except.ok "160.3" }

theorem claim_C10_witness :
    storyC10.SendMessage envC10 = some (Except.error GoErr.alreadyPosted, []) :=
  (claim_C10 storyC10 storyC10 envC10 rfl (by decide) rfl).1

/-- `deleteMessageFunc` from `main.go`: builds `Story{ID: itemID}`,
calls `DeleteMessage`, and logs an error on failure.  Returns the new
store contents, the chat-platform requests issued, and the task
effects. -/
def deleteMessageFunc (id : Int) (store : List StoreRecord) (deleteOK : Bool) :
    List StoreRecord × List ChatRequest × List TaskEffect :=
  let res := Story.DeleteMessage
    { ID := id, URL := "", Title := "", Descendants := 0, Score := 0,
      Timestamp := "", LastSave := 0, Type' := "", missingFieldsLoaded := false }
    store deleteOK
  (res.2.1, res.2.2,
    match res.1 with
    | Except.error _ => [TaskEffect.logError]
    | Except.ok _ => [])

/-- C5 (amended): `ShouldIgnoreError` holds exactly when the error code
is 400 and the description contains "message to delete not found" or
"message can't be deleted"; however, the suppression is never applied by
the cleanup sweep, because `Story.DeleteMessage` only removes the
datastore record and issues no chat-platform request at all, so no
delete response is ever produced or inspected (the predicate is dead
code in this repository). -/
theorem claim_C5 :
    (∀ r : DeleteMessageResponse,
      r.ShouldIgnoreError = true ↔
        (r.ErrorCode = 400 ∧
          ((∃ pre post, r.Description.data =
              pre ++ "message to delete not found".data ++ post) ∨
            (∃ pre post, r.Description.data =
              pre ++ "message can't be deleted".data ++ post)))) ∧
    (∀ (id : Int) (store : List StoreRecord) (deleteOK : Bool),
      (deleteMessageFunc id store deleteOK).2.1 = []) := by
  constructor
  · intro r
    simp only [DeleteMessageResponse.ShouldIgnoreError, goContains,
      Bool.and_eq_true, Bool.or_eq_true, beq_iff_eq, hasSubChars_iff]
  · intro id store deleteOK
    unfold deleteMessageFunc Story.DeleteMessage
    split <;> rfl

def respC5 : DeleteMessageResponse :=
  { OK := false, ErrorCode := 400,
    Description := "Bad Request: message to delete not found" }

def storeC5 : List StoreRecord := [{ id := 42, timestamp := "160.5", lastSave := 0 }]

/-- C5 counterexample: a delete response that the allow-list predicate
classifies as ignorable exists, and the cleanup sweep does select and
delete a stale record — but the dispatched delete issues no
chat-platform request, so the claimed suppression is never applied on
the delete path. -/
theorem claim_C5_counterexample :
    respC5.ShouldIgnoreError = true ∧
    cleanUpDispatch storeC5 (25 * Hour) = [42] ∧
    (deleteMessageFunc 42 storeC5 true).2.1 = [] := by
  refine ⟨by decide, by decide, rfl⟩

/-- The components of a Slack attachment that are determined by the
`Story` alone (fallback, color, title, title link, and the two fields). -/
def attachmentCore (a : SlackMessageAttachments) :
    String × String × String × String × List SlackMessageAttachmentField :=
  (a.Fallback, a.Color, a.Title, a.TitleLink, a.Fields)

/-- C7 (amended): the formatter is deterministic only in the
story-determined core — fallback, color, title, link, and the
score/comments fields depend on the `Story` alone — but the function
performs I/O (it fetches the story URL and unfurls the page), so the
author, thumbnail and text parts of the payload depend on the fetched
page, not only on the item. -/
theorem claim_C7 (s : Story) (env : FormatEnv)
    (h1 : env.fetchOK = true) (h2 : env.parseOK = true) :
    (s.ToSendMessageAttachments env).map (fun l => l.map attachmentCore) =
      some [(s.Title, "#ff6633", s.Title, s.URL,
             [{ Title := "Score", Value := scoreFieldValue s, Short := true },
              { Title := "Comments", Value := commentsFieldValue s, Short := true }])] := by
  simp [Story.ToSendMessageAttachments, h1, h2, attachmentCore]

def storyC7 : Story :=
  { ID := 3, URL := "https://example.com/z", Title := "Z", Descendants := 10,
    Score := 60, Timestamp := "", LastSave := 0, Type' := "story",
    missingFieldsLoaded := true }

def envC7a : FormatEnv :=
  { fetchOK := true, ogOK := true, ogImages := [], ogDescription := "first",
    ogSiteName := "Example", parseOK := true,
    siteIcon := "https://example.com/favicon.ico" }

def envC7b : FormatEnv :=
  { fetchOK := true, ogOK := true, ogImages := [], ogDescription := "second",
    ogSiteName := "Example", parseOK := true,
    siteIcon := "https://example.com/favicon.ico" }

/-- C7 counterexample: the same story formatted against two different
fetch results yields different payloads, so formatting is not a function
of the item alone and two runs need not be byte-identical. -/
theorem claim_C7_counterexample :
    storyC7.ToSendMessageAttachments envC7a ≠ storyC7.ToSendMessageAttachments envC7b := by
  decide

theorem claim_C7_witness :
    (storyC7.ToSendMessageAttachments envC7a).map (fun l => l.map attachmentCore) =
      some [(storyC7.Title, "#ff6633", storyC7.Title, storyC7.URL,
             [{ Title := "Score", Value := scoreFieldValue storyC7, Short := true },
              { Title := "Comments", Value := commentsFieldValue storyC7, Short := true }])] :=
  claim_C7 storyC7 envC7a rfl rfl

/-- C8 (amended): `put` followed by `get` returns a record that agrees
with the stored item on `ID` and `Timestamp` — the only fields
`Story.Save` persists besides the volatile `LastSave` — while every
other field reads back as its zero value; and `get` of an id with no
stored record returns the typed `ErrNoSuchEntity`, not a generic
failure. -/
theorem claim_C8 (store : List StoreRecord) (s : Story) (now : Int) :
    (NewFromDatastore (datastorePut store (s.save now)) s.ID =
      Except.ok { ID := s.ID, URL := "", Title := "", Descendants := 0, Score := 0,
                  Timestamp := s.Timestamp, LastSave := now, Type' := "",
                  missingFieldsLoaded := false }) ∧
    (∀ (st : List StoreRecord) (id : Int), (∀ r ∈ st, r.id ≠ id) →
      NewFromDatastore st id = Except.error GoErr.noSuchEntity) := by
  constructor
  · simp [NewFromDatastore, datastoreGetRecord, datastorePut, Story.save,
      Story.load, List.find?]
  · intro st id h
    unfold NewFromDatastore datastoreGetRecord
    rw [List.find?_eq_none.mpr]
    intro r hr
    simpa using h r hr

def storyC8 : Story :=
  { ID := 7, URL := "https://example.com/a", Title := "Show HN", Descendants := 12,
    Score := 120, Timestamp := "160.1", LastSave := 50, Type' := "story",
    missingFieldsLoaded := false }

/-- C8 counterexample: storing an item and reading it back does not
return an equal record even ignoring the last-saved time — the title,
URL, score, discussion count and kind are not persisted and come back
as zero values. -/
theorem claim_C8_counterexample :
    NewFromDatastore (datastorePut [] (storyC8.save 100)) storyC8.ID =
      Except.ok (Story.load { id := 7, timestamp := "160.1", lastSave := 100 }) ∧
    eqIgnoringLastSave (Story.load { id := 7, timestamp := "160.1", lastSave := 100 })
      storyC8 = false := by
  refine ⟨rfl, by decide⟩

theorem claim_C8_witness :
    NewFromDatastore (datastorePut [] (storyC8.save 100)) storyC8.ID =
      Except.ok { ID := storyC8.ID, URL := "", Title := "", Descendants := 0, Score := 0,
                  Timestamp := storyC8.Timestamp, LastSave := 100, Type' := "",
                  missingFieldsLoaded := false } ∧
    NewFromDatastore [] 5 = Except.error GoErr.noSuchEntity :=
  ⟨(claim_C8 [] storyC8 100).1, (claim_C8 [] storyC8 100).2 [] 5 (by simp)⟩

/-! ## The poll cycle dispatches exactly one action per id -/

theorem dispatch_not_mem (store : Int → LookupOutcome) (id : Int) :
    ∀ ids : List Int, id ∉ ids →
      (∀ ts, PollAction.edit id ts ∉ dispatchActions (pollLookups store ids)) ∧
      PollAction.send id ∉ dispatchActions (pollLookups store ids) := by
  intro ids
  induction ids with
  | nil =>
    intro _
    exact ⟨fun ts h => by simp [pollLookups, dispatchActions] at h,
           fun h => by simp [pollLookups, dispatchActions] at h⟩
  | cons i rest ih =>
    intro h
    have hne : id ≠ i := fun e => h (by simp [e])
    have hrest : id ∉ rest := fun hm => h (by simp [hm])
    obtain ⟨ihe, ihs⟩ := ih hrest
    have hcons : pollLookups store (i :: rest) =
        (i, store i) :: pollLookups store rest := rfl
    rw [hcons]
    cases hsi : store i with
    | found ts' =>
      simp only [dispatchActions]
      constructor
      · intro ts hmem
        rcases List.mem_cons.mp hmem with he | he
        · injection he with h1 _
          exact hne h1
        · exact ihe ts he
      · intro hmem
        rcases List.mem_cons.mp hmem with he | he
        · exact PollAction.noConfusion he
        · exact ihs he
    | notFound =>
      simp only [dispatchActions]
      constructor
      · intro ts hmem
        rcases List.mem_cons.mp hmem with he | he
        · exact PollAction.noConfusion he
        · exact ihe ts he
      · intro hmem
        rcases List.mem_cons.mp hmem with he | he
        · injection he with h1
          exact hne h1
        · exact ihs he
    | failure msg =>
      simp only [dispatchActions]
      exact ⟨ihe, ihs⟩

theorem dispatch_spec (store : Int → LookupOutcome) (id : Int) :
    ∀ ids : List Int, ids.Nodup → id ∈ ids →
      (∀ ts, store id = LookupOutcome.found ts →
        (dispatchActions (pollLookups store ids)).count (PollAction.edit id ts) = 1 ∧
        PollAction.send id ∉ dispatchActions (pollLookups store ids)) ∧
      (store id = LookupOutcome.notFound →
        (dispatchActions (pollLookups store ids)).count (PollAction.send id) = 1 ∧
        ∀ ts, PollAction.edit id ts ∉ dispatchActions (pollLookups store ids)) := by
  intro ids
  induction ids with
  | nil => intro _ hmem; cases hmem
  | cons i rest ih =>
    intro hnd hmem
    have hni : i ∉ rest := (List.nodup_cons.mp hnd).1
    have hndr : rest.Nodup := (List.nodup_cons.mp hnd).2
    have hcons : pollLookups store (i :: rest) =
        (i, store i) :: pollLookups store rest := rfl
    rcases List.mem_cons.mp hmem with rfl | hmr
    · obtain ⟨hne_edit, hne_send⟩ := dispatch_not_mem store id rest hni
      rw [hcons]
      constructor
      · intro ts hfound
        rw [hfound]
        simp only [dispatchActions]
        refine ⟨?_, ?_⟩
        · rw [List.count_cons_self, List.count_eq_zero.mpr (hne_edit ts)]
        · intro hmem'
          rcases List.mem_cons.mp hmem' with he | he
          · exact PollAction.noConfusion he
          · exact hne_send he
      · intro hnf
        rw [hnf]
        simp only [dispatchActions]
        refine ⟨?_, ?_⟩
        · rw [List.count_cons_self, List.count_eq_zero.mpr hne_send]
        · intro ts hmem'
          rcases List.mem_cons.mp hmem' with he | he
          · exact PollAction.noConfusion he
          · exact hne_edit ts he
    · have hne : id ≠ i := fun e => hni (e ▸ hmr)
      obtain ⟨ihf, ihn⟩ := ih hndr hmr
      rw [hcons]
      constructor
      · intro ts hfound
        obtain ⟨hc, hs⟩ := ihf ts hfound
        cases hsi : store i with
        | found ts' =>
          simp only [dispatchActions]
          refine ⟨?_, ?_⟩
          · have hne' : PollAction.edit id ts ≠ PollAction.edit i ts' := by
              intro he
              injection he with h1 h2
              exact hne h1
            rw [List.count_cons_of_ne hne', hc]
          · intro hmem'
            rcases List.mem_cons.mp hmem' with he | he
            · exact PollAction.noConfusion he
            · exact hs he
        | notFound =>
          simp only [dispatchActions]
          refine ⟨?_, ?_⟩
          · rw [List.count_cons_of_ne (fun he => PollAction.noConfusion he), hc]
          · intro hmem'
            rcases List.mem_cons.mp hmem' with he | he
            · injection he with h1
              exact hne h1
            · exact hs he
        | failure msg =>
          simp only [dispatchActions]
          exact ⟨hc, hs⟩
      · intro hnf
        obtain ⟨hc, hs⟩ := ihn hnf
        cases hsi : store i with
        | found ts' =>
          simp only [dispatchActions]
          refine ⟨?_, ?_⟩
          · rw [List.count_cons_of_ne (fun he => PollAction.noConfusion he), hc]
          · intro ts hmem'
            rcases List.mem_cons.mp hmem' with he | he
            · injection he with h1 _
              exact hne h1
            · exact hs ts he
        | notFound =>
          simp only [dispatchActions]
          refine ⟨?_, ?_⟩
          · have hne' : PollAction.send id ≠ PollAction.send i := by
              intro he
              injection he with h1
              exact hne h1
            rw [List.count_cons_of_ne hne', hc]
          · intro ts hmem'
            rcases List.mem_cons.mp hmem' with he | he
            · exact PollAction.noConfusion he
            · exact hs ts he
        | failure msg =>
          simp only [dispatchActions]
          exact ⟨hc, hs⟩

/-- C1: in a poll cycle over the fetched candidate ids (distinct, and of
the expected batch length, without which `GetMulti` fails and nothing is
dispatched), every id found in the store is dispatched exactly one edit
action carrying the stored timestamp and no send action, and every id
whose lookup reports not-found is dispatched exactly one send action and
no edit action. -/
theorem claim_C1 (store : Int → LookupOutcome) (ids : List Int)
    (hnd : ids.Nodup) (hlen : ids.length = BatchSize) (id : Int) (hmem : id ∈ ids) :
    (∀ ts, store id = LookupOutcome.found ts →
      (handler store ids).count (PollAction.edit id ts) = 1 ∧
      PollAction.send id ∉ handler store ids) ∧
    (store id = LookupOutcome.notFound →
      (handler store ids).count (PollAction.send id) = 1 ∧
      ∀ ts, PollAction.edit id ts ∉ handler store ids) := by
  have h : handler store ids = dispatchActions (pollLookups store ids) := by
    simp [handler, hlen]
  rw [h]
  exact dispatch_spec store id ids hnd hmem

def storeC1 : Int → LookupOutcome := fun i =>
  if i = 0 then LookupOutcome.found "160.42" else LookupOutcome.notFound

def idsC1 : List Int := (List.range 30).map Int.ofNat

theorem claim_C1_witness :
    ((handler storeC1 idsC1).count (PollAction.edit 0 "160.42") = 1 ∧
      PollAction.send 0 ∉ handler storeC1 idsC1) ∧
    ((handler storeC1 idsC1).count (PollAction.send 1) = 1 ∧
      ∀ ts, PollAction.edit 1 ts ∉ handler storeC1 idsC1) :=
  ⟨(claim_C1 storeC1 idsC1 (by decide) (by decide) 0 (by decide)).1 "160.42" rfl,
   (claim_C1 storeC1 idsC1 (by decide) (by decide) 1 (by decide)).2 rfl⟩

/-! ## The cleanup sweep -/

/-- C6: a stored record whose last-saved time is at least the 24-hour
retention window old is selected by the cleanup query and dispatched
exactly one delete, and a successful delete removes its record from the
store; a record saved within the window is not selected. -/
theorem claim_C6 (store : List StoreRecord) (now : Int) (r : StoreRecord)
    (hnd : (store.map StoreRecord.id).Nodup) (hmem : r ∈ store) :
    (r.lastSave ≤ now - 24 * Hour →
      r ∈ cleanUpSelected store now ∧
      (cleanUpDispatch store now).count r.id = 1 ∧
      ∀ p ∈ (deleteMessageFunc r.id store true).1, p.id ≠ r.id) ∧
    (now - 24 * Hour < r.lastSave → r ∉ cleanUpSelected store now) := by
  constructor
  · intro hstale
    have hsel : r ∈ cleanUpSelected store now :=
      List.mem_filter.mpr ⟨hmem, by simpa using hstale⟩
    refine ⟨hsel, ?_, ?_⟩
    · have hsub : List.Sublist ((cleanUpSelected store now).map StoreRecord.id)
          (store.map StoreRecord.id) :=
        List.Sublist.map _ (List.filter_sublist _)
      have hnd' : ((cleanUpSelected store now).map StoreRecord.id).Nodup :=
        List.Nodup.sublist hsub hnd
      have hmid : r.id ∈ (cleanUpSelected store now).map StoreRecord.id :=
        List.mem_map_of_mem _ hsel
      exact List.count_eq_one_of_mem hnd' hmid
    · intro p hp
      have hp' : p ∈ store.filter fun q => !(q.id == r.id) := hp
      have := (List.mem_filter.mp hp').2
      simpa using this
  · intro hfresh hsel
    have := (List.mem_filter.mp hsel).2
    simp only [decide_eq_true_eq] at this
    omega

def storeC6 : List StoreRecord :=
  [{ id := 7, timestamp := "160.1", lastSave := 75 * Hour },
   { id := 8, timestamp := "160.2", lastSave := 99 * Hour }]

theorem claim_C6_witness :
    ((⟨7, "160.1", 75 * Hour⟩ : StoreRecord) ∈ cleanUpSelected storeC6 (100 * Hour) ∧
      (cleanUpDispatch storeC6 (100 * Hour)).count 7 = 1 ∧
      ∀ p ∈ (deleteMessageFunc 7 storeC6 true).1, p.id ≠ (7 : Int)) ∧
    (⟨8, "160.2", 99 * Hour⟩ : StoreRecord) ∉ cleanUpSelected storeC6 (100 * Hour) :=
  ⟨(claim_C6 storeC6 (100 * Hour) ⟨7, "160.1", 75 * Hour⟩ (by decide) (by decide)).1
      (by decide),
   (claim_C6 storeC6 (100 * Hour) ⟨8, "160.2", 99 * Hour⟩ (by decide) (by decide)).2
      (by decide)⟩
